import Mathlib

/-!
Shallow embedding of the `sandbox_xd` particle-sandbox core
(`src/state.rs` and the presentation glue in `src/main.rs`).

Conventions of the embedding:
* `f32` coordinates are modelled as `ℚ`; every numeric literal the claims
  touch (wall offsets 9999, half-extents 10000/20040/30020, concrete resize
  arguments) is an integer well below 2^24, hence exact in `f32`, so the
  rational model agrees with the float code on those values.
* rapier's `RigidBodySet`/`ColliderSet` are arenas with no removal operation
  anywhere in this program, so handles are modelled as list indices and the
  sets as lists in insertion order (which is also rapier's iteration order
  in the absence of removals).
* `u128` user data is modelled as `ℕ` (xor and byte truncation agree with
  `Nat` operations on values below 2^128).
* A Rust panic (`unwrap` on a failed clock read, `todo!()` on an
  unsupported shape, `unwrap` on a missing collider handle) is modelled as
  `Option.none`.
* The `parking_lot::Mutex` wrappers serialize access but have no effect on
  the sequential semantics embedded here; they are dropped.
* The physics library's internal caches (`PhysicsPipeline`, `IslandManager`,
  broad/narrow phase, joint sets, CCD solver, query pipeline) are external
  collaborator state that no claim observes; they are omitted.
-/

/-- Collider shapes.  The program only ever builds cuboids
(`ColliderBuilder::cuboid`), but rapier's `TypedShape` has many variants and
`State::for_each_cube` matches on all of them; `ball` and `capsule` stand in
for the non-cuboid variants, each of which hits a `todo!()` arm.
`cuboid hx hy` stores half-extents, as `ColliderBuilder::cuboid` does. -/
inductive Shape where
  | cuboid (hx hy : ℚ)
  | ball (radius : ℚ)
  | capsule (halfHeight radius : ℚ)
  deriving DecidableEq, Repr

/-- Returns `true` exactly on the one shape variant `for_each_cube` supports. -/
def Shape.isCuboid : Shape → Bool
  | .cuboid _ _ => true
  | _ => false

/-- A rapier collider as this program uses it: a shape, a translation
(relative to the parent body when `parent` is `some`, absolute otherwise),
the restitution coefficient, the `u128` user data, and the optional parent
body handle (`insert_with_parent` sets it, plain `insert` leaves it none). -/
structure Collider where
  shape : Shape
  translation : ℚ × ℚ
  restitution : ℚ
  user_data : ℕ
  parent : Option ℕ
  deriving DecidableEq, Repr

/-- Rigid body kinds; the program only builds `RigidBodyBuilder::dynamic()`. -/
inductive BodyType where
  | dynamic
  | fixed
  deriving DecidableEq, Repr

/-- A rapier rigid body as this program uses it: kind, translation, linear
velocity and wake state. -/
structure RigidBody where
  bodyType : BodyType
  translation : ℚ × ℚ
  linvel : ℚ × ℚ
  awake : Bool
  deriving DecidableEq, Repr

/-- The shared simulation state of `src/state.rs` (`struct State`), with the
mutexes and the physics library's internal caches dropped as explained in
the file header.  `box_left`…`box_bottom` are the stored wall collider
handles. -/
structure State where
  rigid_body_set : List RigidBody
  collider_set : List Collider
  gravity : ℚ × ℚ
  box_left : ℕ
  box_right : ℕ
  box_top : ℕ
  box_bottom : ℕ
  deriving DecidableEq, Repr

namespace State

/-- `State::new`: inserts the four walls in source order (bottom, left, top,
right), so their handles are 0, 1, 2, 3.  `ColliderBuilder` defaults give
restitution 0, user data 0 and no parent.  Gravity is `[0.0, 9.81]`. -/
def new : State where
  rigid_body_set := []
  collider_set :=
    [ { shape := .cuboid 30020 10000, translation := (0, 139),
        restitution := 0, user_data := 0, parent := none },
      { shape := .cuboid 10000 20040, translation := (-99, 0),
        restitution := 0, user_data := 0, parent := none },
      { shape := .cuboid 30020 10000, translation := (0, 0),
        restitution := 0, user_data := 0, parent := none },
      { shape := .cuboid 10000 20040, translation := (319, 0),
        restitution := 0, user_data := 0, parent := none } ]
  gravity := (0, 981/100)
  box_left := 1
  box_right := 3
  box_top := 2
  box_bottom := 0

/-- `State::insert_particle` with the nanosecond clock reading `nanos`
already in hand: builds a dynamic body at `(x, y)` (builder default linear
velocity is zero), wakes it, and attaches a 1×1-half-extent cuboid collider
with restitution −1 and `user_data = nanos` via `insert_with_parent`
(relative translation `(0, 0)`). -/
def insert_particle (s : State) (x y : ℚ) (nanos : ℕ) : State :=
  { s with
    rigid_body_set := s.rigid_body_set ++
      [ { bodyType := .dynamic, translation := (x, y), linvel := (0, 0),
          awake := true } ]
    collider_set := s.collider_set ++
      [ { shape := .cuboid 1 1, translation := (0, 0), restitution := -1,
          user_data := nanos, parent := some s.rigid_body_set.length } ] }

/-- The clock-read–failure path of `State::insert_particle`:
`SystemTime::UNIX_EPOCH.elapsed().unwrap()` panics when the system clock
reads before the Unix epoch; `clock = none` models that failed read and
`none` models the panic. -/
def insertParticleClocked (s : State) (x y : ℚ) (clock : Option ℕ) :
    Option State :=
  clock.map (s.insert_particle x y)

/-- `collider_set.get_mut(handle).unwrap()` followed by `set_translation`:
`none` models the panic when the handle is absent. -/
def setTrans (cs : List Collider) (i : ℕ) (p : ℚ × ℚ) :
    Option (List Collider) :=
  match cs.get? i with
  | none => none
  | some c => some (cs.set i { c with translation := p })

/-- `State::resize`: repositions the four walls in source order (top, left,
bottom, right) with the exact translations the source computes. -/
def resize (s : State) (x y width height : ℚ) : Option State :=
  (setTrans s.collider_set s.box_top (0 + x, -9999 + y)).bind fun cs =>
  (setTrans cs s.box_left (-9999 + x, 0 + y)).bind fun cs =>
  (setTrans cs s.box_bottom (0 + x, height + 9999 + y)).bind fun cs =>
  (setTrans cs s.box_right (width + 9999 + x, 0 + y)).map fun cs =>
  { s with collider_set := cs }

/-- World-space position of a collider (`collider.translation()` in rapier):
for a parented collider this is the parent body's translation plus the
relative translation, otherwise the stored translation.  Every parented
collider in this program has a valid parent handle; the fallback for a
dangling handle is never exercised on reachable states. -/
def colliderWorldPos (s : State) (c : Collider) : ℚ × ℚ :=
  match c.parent with
  | some h =>
    match s.rigid_body_set.get? h with
    | some b => (b.translation.1 + c.translation.1,
                 b.translation.2 + c.translation.2)
    | none => c.translation
  | none => c.translation

/-- One iteration of the `for_each_cube` loop body: a cuboid yields
`(pos.x, pos.y, hx*2, hy*2, user_data)`; every other shape hits a `todo!()`
arm, modelled as `none`. -/
def cubeDatum (s : State) (c : Collider) : Option (ℚ × ℚ × ℚ × ℚ × ℕ) :=
  match c.shape with
  | .cuboid hx hy =>
    some ((colliderWorldPos s c).1, (colliderWorldPos s c).2,
          hx * 2, hy * 2, c.user_data)
  | _ => none

/-- The `for_each_cube` loop over a collider list: aborts (`none`) as soon
as the program would panic on an unsupported shape. -/
def cubesAux (s : State) : List Collider → Option (List (ℚ × ℚ × ℚ × ℚ × ℕ))
  | [] => some []
  | c :: rest =>
    match cubeDatum s c with
    | none => none
    | some d => (cubesAux s rest).map (d :: ·)

/-- `State::for_each_cube`: snapshots the collider set and visits each
collider in arena (= insertion) order, producing the argument tuples passed
to the visitor. -/
def for_each_cube (s : State) : Option (List (ℚ × ℚ × ℚ × ℚ × ℕ)) :=
  cubesAux s s.collider_set

/-- A dynamics update the external physics engine may apply to one body
during a tick: new translation, new linear velocity, new wake state. -/
def DynUpd : Type := ℕ → RigidBody → (ℚ × ℚ) × (ℚ × ℚ) × Bool

/-- Modelled from the spec: `State::step` delegates the whole tick to the
external physics collaborator (`PhysicsPipeline::step`), whose code is not
part of this repository.  Per spec §6 the collaborator supplies "a single
'advance by one fixed tick' operation" that, per spec §2 and §4.1, "mutates
all dynamic body positions/velocities"; it neither creates nor removes
bodies or colliders and does not alter collider shapes or user data.  The
tick is therefore modelled as an arbitrary update `f` of each body's
translation, velocity and wake state. -/
def step (s : State) (f : DynUpd) : State :=
  { s with
    rigid_body_set := s.rigid_body_set.mapIdx fun i b =>
      { b with translation := (f i b).1, linvel := (f i b).2.1,
               awake := (f i b).2.2 } }

end State

/-- The cumulative effect of one `resize(x, y, w, h)` call on the collider
stored at index `j`, given the four wall handles: the four translation
writes of `State.resize` in source order (top, left, bottom, right), each
applied when `j` is the corresponding handle.  Later writes win, exactly as
in the sequential source. -/
def wallUpd (tI lI bI rI : ℕ) (x y w h : ℚ) (j : ℕ) (c : Collider) :
    Collider :=
  let c := if j = tI then { c with translation := (0 + x, -9999 + y) } else c
  let c := if j = lI then { c with translation := (-9999 + x, 0 + y) } else c
  let c := if j = bI then { c with translation := (0 + x, h + 9999 + y) } else c
  if j = rI then { c with translation := (w + 9999 + x, 0 + y) } else c

/-- The inner (arena-facing) face of the left wall: its right edge,
`center.x + half-extent.x`.  Defined only for a cuboid shape. -/
def innerOfLeft (c : Collider) : Option ℚ :=
  match c.shape with
  | .cuboid hx _ => some (c.translation.1 + hx)
  | _ => none

/-- The inner face of the right wall: its left edge, `center.x - hx`. -/
def innerOfRight (c : Collider) : Option ℚ :=
  match c.shape with
  | .cuboid hx _ => some (c.translation.1 - hx)
  | _ => none

/-- The inner face of the top wall: its bottom edge, `center.y + hy`
(y grows downward in this program, gravity is `+9.81`). -/
def innerOfTop (c : Collider) : Option ℚ :=
  match c.shape with
  | .cuboid _ hy => some (c.translation.2 + hy)
  | _ => none

/-- The inner face of the bottom wall: its top edge, `center.y - hy`. -/
def innerOfBottom (c : Collider) : Option ℚ :=
  match c.shape with
  | .cuboid _ hy => some (c.translation.2 - hy)
  | _ => none

/-- The four walls' inner faces `(left x, top y, right x, bottom y)`, read
off the colliders stored at the four wall handles. -/
def innerFaces (s : State) : Option (ℚ × ℚ × ℚ × ℚ) :=
  (s.collider_set.get? s.box_left).bind fun cl =>
  (s.collider_set.get? s.box_top).bind fun ct =>
  (s.collider_set.get? s.box_right).bind fun cr =>
  (s.collider_set.get? s.box_bottom).bind fun cb =>
  (innerOfLeft cl).bind fun il =>
  (innerOfTop ct).bind fun it =>
  (innerOfRight cr).bind fun ir =>
  (innerOfBottom cb).map fun ib =>
  (il, it, ir, ib)

/-- The operations a client may interleave on a `State` besides `step`:
particle insertion (with the clock value the insertion read) and wall
repositioning; `enumerate` is a `for_each_cube` call, which reads but does
not mutate. -/
inductive Op where
  | insert (x y : ℚ) (t : ℕ)
  | doResize (x y w h : ℚ)
  | enumerate
  deriving DecidableEq, Repr

namespace State

/-- Apply one operation; `none` models a panic inside the operation. -/
def applyOp (s : State) : Op → Option State
  | .insert x y t => some (s.insert_particle x y t)
  | .doResize x y w h => s.resize x y w h
  | .enumerate => (for_each_cube s).map fun _ => s

/-- Run a sequence of operations left to right, stopping at a panic. -/
def runOps (s : State) : List Op → Option State
  | [] => some s
  | o :: rest => (s.applyOp o).bind fun s' => s'.runOps rest

end State

/-- Number of `insert` operations in a sequence. -/
def countInserts : List Op → ℕ
  | [] => 0
  | Op.insert _ _ _ :: rest => countInserts rest + 1
  | _ :: rest => countInserts rest

/-- The four wall colliders sit at their original handles (bottom 0, left 1,
top 2, right 3, the insertion order of `State::new`) with their original
shapes and no parent body. -/
def WallsAt (s : State) : Prop :=
  s.box_bottom = 0 ∧ s.box_left = 1 ∧ s.box_top = 2 ∧ s.box_right = 3 ∧
  ((s.collider_set.get? 0).map fun c => (c.shape, c.parent)) =
    some (Shape.cuboid 30020 10000, none) ∧
  ((s.collider_set.get? 1).map fun c => (c.shape, c.parent)) =
    some (Shape.cuboid 10000 20040, none) ∧
  ((s.collider_set.get? 2).map fun c => (c.shape, c.parent)) =
    some (Shape.cuboid 30020 10000, none) ∧
  ((s.collider_set.get? 3).map fun c => (c.shape, c.parent)) =
    some (Shape.cuboid 10000 20040, none)

/-- Every collider in the world is an axis-aligned cuboid. -/
def AllCuboid (s : State) : Prop :=
  ∀ c ∈ s.collider_set, c.shape.isCuboid = true

/-- The state invariant maintained by every operation of the program. -/
def StateInv (s : State) : Prop := WallsAt s ∧ AllCuboid s

/-- The states reachable by the program: a fresh world mutated by any
interleaving of particle insertions, resizes and physics ticks
(`for_each_cube` does not mutate the state). -/
inductive Reachable : State → Prop where
  | fresh : Reachable State.new
  | insert {s : State} (x y : ℚ) (t : ℕ) :
      Reachable s → Reachable (s.insert_particle x y t)
  | doResize {s s' : State} (x y w h : ℚ) :
      Reachable s → s.resize x y w h = some s' → Reachable s'
  | tick {s : State} (f : State.DynUpd) : Reachable s → Reachable (s.step f)

/-- A world holding one non-cuboid collider; not reachable by this program,
used to exhibit the `todo!()` abort of `for_each_cube`. -/
def badState : State where
  rigid_body_set := []
  collider_set :=
    [ { shape := .ball 1, translation := (0, 0), restitution := 0,
        user_data := 0, parent := none } ]
  gravity := (0, 981/100)
  box_left := 1
  box_right := 3
  box_top := 2
  box_bottom := 0

/-- The color computation of the `for_each_cube` visitor in `src/main.rs`:
`Color::new((rand ^ 0xFF0000) as u8, (rand ^ 0x00FF00) as u8,
(rand ^ 0x0000FF) as u8, 255)`.  The `as u8` cast is `% 256`. -/
def drawColor (rand : ℕ) : ℕ × ℕ × ℕ × ℕ :=
  ((rand ^^^ 0xFF0000) % 256, (rand ^^^ 0x00FF00) % 256,
   (rand ^^^ 0x0000FF) % 256, 255)

/-! ## Helper lemmas -/

theorem setTrans_length {cs cs' : List Collider} {i : ℕ} {p : ℚ × ℚ}
    (h : State.setTrans cs i p = some cs') : cs'.length = cs.length := by
  unfold State.setTrans at h
  cases hc : cs.get? i <;> rw [hc] at h
  · exact absurd h (by simp)
  · cases h
    exact List.length_set cs i _

theorem setTrans_get? {cs cs' : List Collider} {i : ℕ} {p : ℚ × ℚ}
    (h : State.setTrans cs i p = some cs') (j : ℕ) :
    cs'.get? j = if j = i
      then (cs.get? j).map (fun c => { c with translation := p })
      else cs.get? j := by
  unfold State.setTrans at h
  cases hc : cs.get? i <;> rw [hc] at h
  · exact absurd h (by simp)
  · cases h
    simp only [List.get?_eq_getElem?, List.getElem?_set]
    rw [List.get?_eq_getElem?] at hc
    by_cases hij : i = j
    · subst hij
      simp [hc, (List.getElem?_eq_some.1 hc).1]
    · simp [hij, Ne.symm hij]

theorem setTrans_some_of_lt {cs : List Collider} {i : ℕ} (p : ℚ × ℚ)
    (h : i < cs.length) : ∃ cs', State.setTrans cs i p = some cs' := by
  unfold State.setTrans
  cases hc : cs.get? i
  · rw [List.get?_eq_getElem?, List.getElem?_eq_none_iff] at hc
    omega
  · exact ⟨_, rfl⟩

theorem lt_length_of_get?_some {α : Type} {l : List α} {j : ℕ} {a : α}
    (h : l.get? j = some a) : j < l.length := by
  rw [List.get?_eq_getElem?] at h
  exact (List.getElem?_eq_some.1 h).1

theorem wallUpd_fields (tI lI bI rI : ℕ) (x y w h : ℚ) (j : ℕ)
    (c : Collider) :
    (wallUpd tI lI bI rI x y w h j c).shape = c.shape ∧
    (wallUpd tI lI bI rI x y w h j c).restitution = c.restitution ∧
    (wallUpd tI lI bI rI x y w h j c).user_data = c.user_data ∧
    (wallUpd tI lI bI rI x y w h j c).parent = c.parent := by
  unfold wallUpd
  split_ifs <;> simp

theorem wallUpd_id {tI lI bI rI j : ℕ} (x y w h : ℚ) (c : Collider)
    (h1 : j ≠ tI) (h2 : j ≠ lI) (h3 : j ≠ bI) (h4 : j ≠ rI) :
    wallUpd tI lI bI rI x y w h j c = c := by
  unfold wallUpd
  simp [h1, h2, h3, h4]

theorem wallUpd_idem (tI lI bI rI : ℕ) (x y w h : ℚ) (j : ℕ)
    (c : Collider) :
    wallUpd tI lI bI rI x y w h j (wallUpd tI lI bI rI x y w h j c) =
      wallUpd tI lI bI rI x y w h j c := by
  unfold wallUpd
  split_ifs <;> rfl

theorem resize_spec {s s' : State} {x y w h : ℚ}
    (hr : s.resize x y w h = some s') :
    s'.rigid_body_set = s.rigid_body_set ∧
    s'.gravity = s.gravity ∧
    s'.box_left = s.box_left ∧ s'.box_right = s.box_right ∧
    s'.box_top = s.box_top ∧ s'.box_bottom = s.box_bottom ∧
    s'.collider_set.length = s.collider_set.length ∧
    ∀ j, s'.collider_set.get? j =
      (s.collider_set.get? j).map
        (wallUpd s.box_top s.box_left s.box_bottom s.box_right x y w h j) := by
  unfold State.resize at hr
  cases h1 : State.setTrans s.collider_set s.box_top (0 + x, -9999 + y) with
  | none => rw [h1] at hr; exact absurd hr (by simp)
  | some cs1 =>
  rw [h1, Option.some_bind] at hr
  cases h2 : State.setTrans cs1 s.box_left (-9999 + x, 0 + y) with
  | none => rw [h2] at hr; exact absurd hr (by simp)
  | some cs2 =>
  rw [h2, Option.some_bind] at hr
  cases h3 : State.setTrans cs2 s.box_bottom (0 + x, h + 9999 + y) with
  | none => rw [h3] at hr; exact absurd hr (by simp)
  | some cs3 =>
  rw [h3, Option.some_bind] at hr
  cases h4 : State.setTrans cs3 s.box_right (w + 9999 + x, 0 + y) with
  | none => rw [h4] at hr; exact absurd hr (by simp)
  | some cs4 =>
  rw [h4, Option.map_some'] at hr
  cases hr
  refine ⟨rfl, rfl, rfl, rfl, rfl, rfl, ?_, ?_⟩
  · exact (setTrans_length h4).trans ((setTrans_length h3).trans
      ((setTrans_length h2).trans (setTrans_length h1)))
  · intro j
    show cs4.get? j = _
    rw [setTrans_get? h4 j, setTrans_get? h3 j, setTrans_get? h2 j,
        setTrans_get? h1 j]
    unfold wallUpd
    cases hcj : s.collider_set.get? j with
    | none => simp
    | some c =>
      simp only [Option.map_some']
      split_ifs <;> simp

theorem resize_some_of {s : State} (x y w h : ℚ)
    (ht : s.box_top < s.collider_set.length)
    (hl : s.box_left < s.collider_set.length)
    (hb : s.box_bottom < s.collider_set.length)
    (hr : s.box_right < s.collider_set.length) :
    ∃ s', s.resize x y w h = some s' := by
  obtain ⟨cs1, h1⟩ := setTrans_some_of_lt (0 + x, -9999 + y) ht
  obtain ⟨cs2, h2⟩ := setTrans_some_of_lt (-9999 + x, 0 + y)
    ((setTrans_length h1).symm ▸ hl)
  obtain ⟨cs3, h3⟩ := setTrans_some_of_lt (0 + x, h + 9999 + y)
    (((setTrans_length h2).trans (setTrans_length h1)).symm ▸ hb)
  obtain ⟨cs4, h4⟩ := setTrans_some_of_lt (w + 9999 + x, 0 + y)
    (((setTrans_length h3).trans ((setTrans_length h2).trans
      (setTrans_length h1))).symm ▸ hr)
  refine ⟨{ s with collider_set := cs4 }, ?_⟩
  unfold State.resize
  rw [h1, Option.some_bind, h2, Option.some_bind, h3, Option.some_bind, h4,
      Option.map_some']

theorem State.eq_of_parts {a b : State}
    (h1 : a.rigid_body_set = b.rigid_body_set)
    (h2 : a.collider_set = b.collider_set) (h3 : a.gravity = b.gravity)
    (h4 : a.box_left = b.box_left) (h5 : a.box_right = b.box_right)
    (h6 : a.box_top = b.box_top) (h7 : a.box_bottom = b.box_bottom) :
    a = b := by
  cases a; cases b
  simp_all

theorem cubeDatum_isSome (s : State) (c : Collider) :
    (State.cubeDatum s c).isSome = c.shape.isCuboid := by
  unfold State.cubeDatum Shape.isCuboid
  cases c.shape <;> rfl

theorem cubesAux_length (s : State) (l : List Collider)
    (h : ∀ c ∈ l, c.shape.isCuboid = true) :
    ∃ out, State.cubesAux s l = some out ∧ out.length = l.length := by
  induction l with
  | nil => exact ⟨[], rfl, rfl⟩
  | cons c rest ih =>
    obtain ⟨out, ho, hl⟩ := ih fun d hd => h d (List.mem_cons_of_mem c hd)
    have hc : (State.cubeDatum s c).isSome = true := by
      rw [cubeDatum_isSome]; exact h c (List.mem_cons_self c rest)
    cases hd : State.cubeDatum s c with
    | none => rw [hd] at hc; exact absurd hc (by simp)
    | some d =>
      refine ⟨d :: out, ?_, by simp [hl]⟩
      unfold State.cubesAux
      rw [hd, ho]
      rfl

theorem cubesAux_none_of_mem {s : State} {l : List Collider} {c : Collider}
    (hm : c ∈ l) (hc : c.shape.isCuboid = false) :
    State.cubesAux s l = none := by
  induction l with
  | nil => cases hm
  | cons d rest ih =>
    cases List.mem_cons.1 hm with
    | inl he =>
      subst he
      have : State.cubeDatum s c = none := by
        have := cubeDatum_isSome s c
        rw [hc] at this
        exact Option.not_isSome_iff_eq_none.1 (by simp [this])
      unfold State.cubesAux
      rw [this]
    | inr hm' =>
      unfold State.cubesAux
      cases hd : State.cubeDatum s d with
      | none => rfl
      | some e => rw [ih hm']; rfl

theorem for_each_cube_some {s : State} (h : AllCuboid s) :
    ∃ out, State.for_each_cube s = some out ∧
      out.length = s.collider_set.length :=
  cubesAux_length s s.collider_set h

theorem wallsAt_lt {s : State} (h : WallsAt s) :
    s.box_top < s.collider_set.length ∧
    s.box_left < s.collider_set.length ∧
    s.box_bottom < s.collider_set.length ∧
    s.box_right < s.collider_set.length := by
  obtain ⟨hb, hl, ht, hr, m0, m1, m2, m3⟩ := h
  have l3 : 3 < s.collider_set.length := by
    cases hg : s.collider_set.get? 3 with
    | none => rw [hg] at m3; exact absurd m3 (by simp)
    | some c => exact lt_length_of_get?_some hg
  exact ⟨by omega, by omega, by omega, by omega⟩

theorem inv_new : StateInv State.new :=
  ⟨⟨rfl, rfl, rfl, rfl, rfl, rfl, rfl, rfl⟩, by unfold AllCuboid; decide⟩

theorem inv_insert {s : State} (x y : ℚ) (t : ℕ) (h : StateInv s) :
    StateInv (s.insert_particle x y t) := by
  obtain ⟨⟨hb, hl, ht, hr, m0, m1, m2, m3⟩, hcub⟩ := h
  have l3 : 3 < s.collider_set.length := by
    cases hg : s.collider_set.get? 3 with
    | none => rw [hg] at m3; exact absurd m3 (by simp)
    | some c => exact lt_length_of_get?_some hg
  have hget : ∀ j, j < s.collider_set.length →
      (s.insert_particle x y t).collider_set.get? j =
        s.collider_set.get? j := by
    intro j hj
    exact List.get?_append hj
  refine ⟨⟨hb, hl, ht, hr, ?_, ?_, ?_, ?_⟩, ?_⟩
  · rw [hget 0 (by omega)]; exact m0
  · rw [hget 1 (by omega)]; exact m1
  · rw [hget 2 (by omega)]; exact m2
  · rw [hget 3 (by omega)]; exact m3
  · intro c hc
    rcases List.mem_append.1 hc with hc | hc
    · exact hcub c hc
    · rw [List.mem_singleton.1 hc]; rfl

theorem inv_resize {s s' : State} {x y w h : ℚ} (hi : StateInv s)
    (hr : s.resize x y w h = some s') : StateInv s' := by
  obtain ⟨⟨hb, hl, ht, hrr, m0, m1, m2, m3⟩, hcub⟩ := hi
  obtain ⟨_, _, el, er, et, eb, _, hget⟩ := resize_spec hr
  have fields : ∀ j (c : Collider),
      ((wallUpd s.box_top s.box_left s.box_bottom s.box_right x y w h j
        c).shape,
       (wallUpd s.box_top s.box_left s.box_bottom s.box_right x y w h j
        c).parent) = (c.shape, c.parent) := by
    intro j c
    obtain ⟨f1, _, _, f4⟩ :=
      wallUpd_fields s.box_top s.box_left s.box_bottom s.box_right x y w h j c
    rw [f1, f4]
  refine ⟨⟨eb.trans hb, el.trans hl, et.trans ht, er.trans hrr,
    ?_, ?_, ?_, ?_⟩, ?_⟩
  · rw [hget 0, Option.map_map]
    cases hg : s.collider_set.get? 0 with
    | none => rw [hg] at m0; exact absurd m0 (by simp)
    | some c =>
      rw [hg] at m0
      simp only [Option.map_some', Function.comp] at m0 ⊢
      rw [fields 0 c]; exact m0
  · rw [hget 1, Option.map_map]
    cases hg : s.collider_set.get? 1 with
    | none => rw [hg] at m1; exact absurd m1 (by simp)
    | some c =>
      rw [hg] at m1
      simp only [Option.map_some', Function.comp] at m1 ⊢
      rw [fields 1 c]; exact m1
  · rw [hget 2, Option.map_map]
    cases hg : s.collider_set.get? 2 with
    | none => rw [hg] at m2; exact absurd m2 (by simp)
    | some c =>
      rw [hg] at m2
      simp only [Option.map_some', Function.comp] at m2 ⊢
      rw [fields 2 c]; exact m2
  · rw [hget 3, Option.map_map]
    cases hg : s.collider_set.get? 3 with
    | none => rw [hg] at m3; exact absurd m3 (by simp)
    | some c =>
      rw [hg] at m3
      simp only [Option.map_some', Function.comp] at m3 ⊢
      rw [fields 3 c]; exact m3
  · intro c' hc'
    obtain ⟨j, hj⟩ := List.mem_iff_get?.1 hc'
    rw [hget j] at hj
    cases hg : s.collider_set.get? j with
    | none => rw [hg] at hj; exact absurd hj (by simp)
    | some c =>
      rw [hg, Option.map_some'] at hj
      cases hj
      have := (wallUpd_fields s.box_top s.box_left s.box_bottom s.box_right
        x y w h j c).1
      rw [this]
      exact hcub c (List.get?_mem hg)

theorem inv_step {s : State} (f : State.DynUpd) (h : StateInv s) :
    StateInv (s.step f) :=
  h

theorem reachable_inv {s : State} (h : Reachable s) : StateInv s := by
  induction h with
  | fresh => exact inv_new
  | insert x y t _ ih => exact inv_insert x y t ih
  | doResize x y w h _ hr ih => exact inv_resize ih hr
  | tick f _ ih => exact inv_step f ih

theorem insert_collider_length (s : State) (x y : ℚ) (t : ℕ) :
    (s.insert_particle x y t).collider_set.length =
      s.collider_set.length + 1 := by
  simp [State.insert_particle]

theorem runOps_spec (ops : List Op) : ∀ s : State, StateInv s →
    ∃ s', State.runOps s ops = some s' ∧ StateInv s' ∧
      s'.collider_set.length = s.collider_set.length + countInserts ops := by
  induction ops with
  | nil => exact fun s h => ⟨s, rfl, h, by simp [countInserts]⟩
  | cons o rest ih =>
    intro s h
    cases o with
    | insert x y t =>
      obtain ⟨s', h1, h2, h3⟩ := ih (s.insert_particle x y t)
        (inv_insert x y t h)
      refine ⟨s', ?_, h2, ?_⟩
      · show ((s.applyOp (Op.insert x y t)).bind
          fun s' => s'.runOps rest) = some s'
        rw [show s.applyOp (Op.insert x y t) =
          some (s.insert_particle x y t) from rfl, Option.some_bind]
        exact h1
      · rw [h3, insert_collider_length]
        show s.collider_set.length + 1 + countInserts rest =
          s.collider_set.length + (countInserts rest + 1)
        omega
    | doResize x y w hh =>
      obtain ⟨lt1, lt2, lt3, lt4⟩ := wallsAt_lt h.1
      obtain ⟨s1, hrs⟩ := resize_some_of x y w hh lt1 lt2 lt3 lt4
      obtain ⟨s', h1, h2, h3⟩ := ih s1 (inv_resize h hrs)
      refine ⟨s', ?_, h2, ?_⟩
      · show ((s.applyOp (Op.doResize x y w hh)).bind
          fun s' => s'.runOps rest) = some s'
        rw [show s.applyOp (Op.doResize x y w hh) =
          s.resize x y w hh from rfl, hrs, Option.some_bind]
        exact h1
      · rw [h3, (resize_spec hrs).2.2.2.2.2.2.1]
        rfl
    | enumerate =>
      obtain ⟨out, ho, _⟩ := for_each_cube_some h.2
      obtain ⟨s', h1, h2, h3⟩ := ih s h
      refine ⟨s', ?_, h2, h3⟩
      show ((s.applyOp Op.enumerate).bind fun s' => s'.runOps rest) = some s'
      rw [show s.applyOp Op.enumerate =
        (State.for_each_cube s).map (fun _ => s) from rfl, ho,
        Option.map_some', Option.some_bind]
      exact h1

theorem setTrans_lt {cs cs' : List Collider} {i : ℕ} {p : ℚ × ℚ}
    (h : State.setTrans cs i p = some cs') : i < cs.length := by
  unfold State.setTrans at h
  cases hc : cs.get? i <;> rw [hc] at h
  · exact absurd h (by simp)
  · exact lt_length_of_get?_some hc

theorem resize_bounds {s s' : State} {x y w h : ℚ}
    (hr : s.resize x y w h = some s') :
    s.box_top < s.collider_set.length ∧
    s.box_left < s.collider_set.length ∧
    s.box_bottom < s.collider_set.length ∧
    s.box_right < s.collider_set.length := by
  unfold State.resize at hr
  cases h1 : State.setTrans s.collider_set s.box_top (0 + x, -9999 + y) with
  | none => rw [h1] at hr; exact absurd hr (by simp)
  | some cs1 =>
  rw [h1, Option.some_bind] at hr
  cases h2 : State.setTrans cs1 s.box_left (-9999 + x, 0 + y) with
  | none => rw [h2] at hr; exact absurd hr (by simp)
  | some cs2 =>
  rw [h2, Option.some_bind] at hr
  cases h3 : State.setTrans cs2 s.box_bottom (0 + x, h + 9999 + y) with
  | none => rw [h3] at hr; exact absurd hr (by simp)
  | some cs3 =>
  rw [h3, Option.some_bind] at hr
  cases h4 : State.setTrans cs3 s.box_right (w + 9999 + x, 0 + y) with
  | none => rw [h4] at hr; exact absurd hr (by simp)
  | some cs4 =>
  have e1 := setTrans_length h1
  have e2 := setTrans_length h2
  have e3 := setTrans_length h3
  exact ⟨setTrans_lt h1, by have := setTrans_lt h2; omega,
    by have := setTrans_lt h3; omega, by have := setTrans_lt h4; omega⟩

theorem innerOfLeft_cuboid {c : Collider} {hx hy : ℚ}
    (h : c.shape = .cuboid hx hy) :
    innerOfLeft c = some (c.translation.1 + hx) := by
  simp [innerOfLeft, h]

theorem innerOfRight_cuboid {c : Collider} {hx hy : ℚ}
    (h : c.shape = .cuboid hx hy) :
    innerOfRight c = some (c.translation.1 - hx) := by
  simp [innerOfRight, h]

theorem innerOfTop_cuboid {c : Collider} {hx hy : ℚ}
    (h : c.shape = .cuboid hx hy) :
    innerOfTop c = some (c.translation.2 + hy) := by
  simp [innerOfTop, h]

theorem innerOfBottom_cuboid {c : Collider} {hx hy : ℚ}
    (h : c.shape = .cuboid hx hy) :
    innerOfBottom c = some (c.translation.2 - hy) := by
  simp [innerOfBottom, h]

/-! ## Claim theorems -/

/-- C1: for every sequence of operations on a fresh `State` consisting of
`N` `insert_particle(x, y)` calls (finite coordinates, arbitrary clock
readings) interleaved with any number of `resize` and `for_each_cube`
calls, the whole run succeeds and `for_each_cube` then enumerates exactly
`N + 4` colliders: the `N` inserted particles plus the four boundary
walls. -/
theorem c1_count_inserts_plus_walls (ops : List Op) :
    ∃ s' out, State.runOps State.new ops = some s' ∧
      State.for_each_cube s' = some out ∧
      out.length = countInserts ops + 4 := by
  obtain ⟨s', h1, h2, h3⟩ := runOps_spec ops State.new inv_new
  obtain ⟨out, ho, hlen⟩ := for_each_cube_some h2.2
  refine ⟨s', out, h1, ho, ?_⟩
  rw [hlen, h3]
  have h4 : State.new.collider_set.length = 4 := rfl
  omega

/-- C3: the drawn color is a pure function of the collider's `user_data`
tag — equal tags always yield identical colors — and each channel is the
low byte of the tag XOR-mixed against the fixed masks `0xFF0000`,
`0x00FF00`, `0x0000FF`, with alpha always 255. -/
theorem c3_color_pure_xor :
    (∀ t₁ t₂ : ℕ, t₁ = t₂ → drawColor t₁ = drawColor t₂) ∧
    (∀ t : ℕ, drawColor t =
      ((t ^^^ 0xFF0000) % 256, (t ^^^ 0x00FF00) % 256,
       (t ^^^ 0x0000FF) % 256, 255)) :=
  ⟨fun _ _ h => congrArg drawColor h, fun _ => rfl⟩

/-- Witness for C3 at the concrete tag 12345. -/
theorem c3_witness :
    drawColor 12345 = drawColor 12345 ∧
    drawColor 12345 =
      ((12345 ^^^ 0xFF0000) % 256, (12345 ^^^ 0x00FF00) % 256,
       (12345 ^^^ 0x0000FF) % 256, 255) :=
  ⟨c3_color_pure_xor.1 12345 12345 rfl, c3_color_pure_xor.2 12345⟩

/-- C4: with a successful clock read `t`, `insert_particle(x, y)` appends
exactly one dynamic body translated to `(x, y)` with zero initial velocity,
awake, and exactly one attached collider — a 1×1-half-extent cuboid whose
user-data tag is the nanosecond timestamp `t`, parented to the new body and
positioned at `(x, y)` in world space; nothing else is created or
changed. -/
theorem c4_insert_one_body_one_collider (s : State) (x y : ℚ) (t : ℕ) :
    State.insertParticleClocked s x y (some t) =
      some (s.insert_particle x y t) ∧
    ∃ b c, (s.insert_particle x y t).rigid_body_set =
        s.rigid_body_set ++ [b] ∧
      (s.insert_particle x y t).collider_set = s.collider_set ++ [c] ∧
      b.bodyType = BodyType.dynamic ∧ b.translation = (x, y) ∧
      b.linvel = (0, 0) ∧ b.awake = true ∧
      c.shape = Shape.cuboid 1 1 ∧ c.user_data = t ∧
      c.parent = some s.rigid_body_set.length ∧
      State.colliderWorldPos (s.insert_particle x y t) c = (x, y) ∧
      (s.insert_particle x y t).gravity = s.gravity ∧
      (s.insert_particle x y t).box_left = s.box_left ∧
      (s.insert_particle x y t).box_right = s.box_right ∧
      (s.insert_particle x y t).box_top = s.box_top ∧
      (s.insert_particle x y t).box_bottom = s.box_bottom := by
  refine ⟨rfl, _, _, rfl, rfl, rfl, rfl, rfl, rfl, rfl, rfl, rfl, ?_,
    rfl, rfl, rfl, rfl, rfl⟩
  have hb : (s.insert_particle x y t).rigid_body_set[s.rigid_body_set.length]?
      = some { bodyType := .dynamic, translation := (x, y), linvel := (0, 0),
               awake := true } := by
    show (s.rigid_body_set ++ [_])[s.rigid_body_set.length]? = _
    rw [List.getElem?_append_right le_rfl]
    simp
  simp [State.colliderWorldPos, hb]

/-- C5 counterexample: the claim says `insert_particle` never panics for
finite coordinates, but the source unwraps the system-clock reading, and a
clock read before the Unix epoch (modelled as `none`) makes it panic even
at the finite coordinates `(0, 0)`. -/
theorem c5_counterexample :
    State.insertParticleClocked State.new 0 0 none = none := rfl

/-- C5 amended: `insert_particle` always succeeds for every pair of finite
coordinates provided the system-clock read succeeds; a failed clock read
aborts the process. -/
theorem c5_amended_succeeds_given_clock (s : State) (x y : ℚ) (t : ℕ) :
    (State.insertParticleClocked s x y (some t)).isSome = true := rfl

/-- C2 counterexample: after `resize(0, 0, 320, 240)` on a fresh world the
walls' inner faces sit at left 1, top 1, right 319, bottom 239 — one unit
inside the rectangle — not at 0, 0, 320, 240 as the claim states: the
outward offset 9999 is one unit less than the 10000 half-extent. -/
theorem c2_counterexample :
    (State.new.resize 0 0 320 240).bind innerFaces = some (1, 1, 319, 239) ∧
    ((1, 1, 319, 239) : ℚ × ℚ × ℚ × ℚ) ≠ (0, 0, 320, 240) := by
  constructor
  · norm_num [State.resize, State.setTrans, State.new, innerFaces,
      innerOfLeft, innerOfTop, innerOfRight, innerOfBottom, List.set]
  · norm_num [Prod.ext_iff]

/-- C2 amended: `resize(x, y, w, h)` repositions the four walls with an
outward offset of 9999 — one unit less than the relevant half-extent — so
the inner faces land exactly one unit inside the rectangle
`[x, x+w] × [y, y+h]`: left face at `x+1`, top at `y+1`, right at
`x+w-1`, bottom at `y+h-1` (for `resize(0,0,320,240)`: x ∈ [1,319],
y ∈ [1,239]). -/
theorem c2_amended_inner_faces (s : State) (x y w h : ℚ) (s' : State)
    (hs : Reachable s) (hr : s.resize x y w h = some s') :
    innerFaces s' = some (x + 1, y + 1, x + w - 1, y + h - 1) := by
  obtain ⟨⟨hb, hl, ht, hrr, m0, m1, m2, m3⟩, _⟩ := reachable_inv hs
  obtain ⟨_, _, el, er, et, eb, _, hget⟩ := resize_spec hr
  cases hg0 : s.collider_set.get? 0 with
  | none => rw [hg0] at m0; exact absurd m0 (by simp)
  | some c0 =>
  cases hg1 : s.collider_set.get? 1 with
  | none => rw [hg1] at m1; exact absurd m1 (by simp)
  | some c1 =>
  cases hg2 : s.collider_set.get? 2 with
  | none => rw [hg2] at m2; exact absurd m2 (by simp)
  | some c2 =>
  cases hg3 : s.collider_set.get? 3 with
  | none => rw [hg3] at m3; exact absurd m3 (by simp)
  | some c3 =>
  rw [hg0, Option.map_some'] at m0
  rw [hg1, Option.map_some'] at m1
  rw [hg2, Option.map_some'] at m2
  rw [hg3, Option.map_some'] at m3
  simp only [Option.some.injEq, Prod.mk.injEq] at m0 m1 m2 m3
  have w0 := hget 0
  have w1 := hget 1
  have w2 := hget 2
  have w3 := hget 3
  rw [hg0, Option.map_some'] at w0
  rw [hg1, Option.map_some'] at w1
  rw [hg2, Option.map_some'] at w2
  rw [hg3, Option.map_some'] at w3
  rw [hb, hl, ht, hrr] at w0 w1 w2 w3
  have u0 : wallUpd 2 1 0 3 x y w h 0 c0 =
      { shape := Shape.cuboid 30020 10000,
        translation := (0 + x, h + 9999 + y),
        restitution := c0.restitution, user_data := c0.user_data,
        parent := c0.parent } := by
    norm_num [wallUpd, m0.1]
  have u1 : wallUpd 2 1 0 3 x y w h 1 c1 =
      { shape := Shape.cuboid 10000 20040,
        translation := (-9999 + x, 0 + y),
        restitution := c1.restitution, user_data := c1.user_data,
        parent := c1.parent } := by
    norm_num [wallUpd, m1.1]
  have u2 : wallUpd 2 1 0 3 x y w h 2 c2 =
      { shape := Shape.cuboid 30020 10000,
        translation := (0 + x, -9999 + y),
        restitution := c2.restitution, user_data := c2.user_data,
        parent := c2.parent } := by
    norm_num [wallUpd, m2.1]
  have u3 : wallUpd 2 1 0 3 x y w h 3 c3 =
      { shape := Shape.cuboid 10000 20040,
        translation := (w + 9999 + x, 0 + y),
        restitution := c3.restitution, user_data := c3.user_data,
        parent := c3.parent } := by
    norm_num [wallUpd, m3.1]
  rw [u0] at w0
  rw [u1] at w1
  rw [u2] at w2
  rw [u3] at w3
  unfold innerFaces
  rw [el.trans hl, et.trans ht, er.trans hrr, eb.trans hb, w0, w1, w2, w3]
  simp only [Option.some_bind, innerOfLeft, innerOfTop, innerOfRight,
    innerOfBottom, Option.map_some', Option.some.injEq, Prod.mk.injEq]
  refine ⟨by ring, by ring, by ring, by ring⟩

/-- Witness for C2 amended at the fresh world and `resize(0, 0, 320, 240)`. -/
theorem c2_witness :
    (State.new.resize 0 0 320 240).bind innerFaces =
      some (0 + 1, 0 + 1, 0 + 320 - 1, 0 + 240 - 1) := by
  cases hr : State.new.resize 0 0 320 240 with
  | none =>
    have hsome : (State.new.resize 0 0 320 240).isSome = true := by
      norm_num [State.resize, State.setTrans, State.new, List.set]
    rw [hr] at hsome
    exact absurd hsome (by simp)
  | some s' =>
    rw [Option.some_bind]
    exact c2_amended_inner_faces State.new 0 0 320 240 s' Reachable.fresh hr

/-- C6: in every state reachable via `new`, `insert_particle`, `resize`
and `step`, the four boundary walls created at construction are still
present under their original handles (bottom 0, left 1, top 2, right 3),
with their original shapes and no parent body: no operation ever removes
them. -/
theorem c6_walls_never_removed (s : State) (h : Reachable s) :
    s.box_bottom = State.new.box_bottom ∧
    s.box_left = State.new.box_left ∧
    s.box_top = State.new.box_top ∧
    s.box_right = State.new.box_right ∧
    ((s.collider_set.get? s.box_bottom).map fun c => (c.shape, c.parent)) =
      some (Shape.cuboid 30020 10000, none) ∧
    ((s.collider_set.get? s.box_left).map fun c => (c.shape, c.parent)) =
      some (Shape.cuboid 10000 20040, none) ∧
    ((s.collider_set.get? s.box_top).map fun c => (c.shape, c.parent)) =
      some (Shape.cuboid 30020 10000, none) ∧
    ((s.collider_set.get? s.box_right).map fun c => (c.shape, c.parent)) =
      some (Shape.cuboid 10000 20040, none) := by
  obtain ⟨⟨hb, hl, ht, hr, m0, m1, m2, m3⟩, _⟩ := reachable_inv h
  rw [hb, hl, ht, hr]
  exact ⟨rfl, rfl, rfl, rfl, m0, m1, m2, m3⟩

/-- Witness for C6 at the fresh world. -/
theorem c6_witness :
    State.new.box_bottom = State.new.box_bottom ∧
    State.new.box_left = State.new.box_left ∧
    State.new.box_top = State.new.box_top ∧
    State.new.box_right = State.new.box_right ∧
    ((State.new.collider_set.get? State.new.box_bottom).map
      fun c => (c.shape, c.parent)) = some (Shape.cuboid 30020 10000, none) ∧
    ((State.new.collider_set.get? State.new.box_left).map
      fun c => (c.shape, c.parent)) = some (Shape.cuboid 10000 20040, none) ∧
    ((State.new.collider_set.get? State.new.box_top).map
      fun c => (c.shape, c.parent)) = some (Shape.cuboid 30020 10000, none) ∧
    ((State.new.collider_set.get? State.new.box_right).map
      fun c => (c.shape, c.parent)) = some (Shape.cuboid 10000 20040, none) :=
  c6_walls_never_removed State.new Reachable.fresh

/-- C7: `resize` is idempotent — if `resize(x, y, w, h)` succeeds and
produces `s'`, running the identical call again on `s'` succeeds and is a
no-op, returning `s'` itself (in particular all four wall positions are
unchanged by the second call). -/
theorem c7_resize_idempotent (s : State) (x y w h : ℚ) (s' : State)
    (hr : s.resize x y w h = some s') : s'.resize x y w h = some s' := by
  obtain ⟨erb, eg, el, err, et, eb, elen, hget⟩ := resize_spec hr
  obtain ⟨bt, bl, bb, br⟩ := resize_bounds hr
  obtain ⟨s'', hr2⟩ := resize_some_of x y w h
    (by rw [et, elen]; exact bt) (by rw [el, elen]; exact bl)
    (by rw [eb, elen]; exact bb) (by rw [err, elen]; exact br)
  obtain ⟨erb2, eg2, el2, err2, et2, eb2, elen2, hget2⟩ := resize_spec hr2
  have hcs : s''.collider_set = s'.collider_set := by
    apply List.ext_get?
    intro j
    rw [hget2 j, et, el, eb, err, hget j, Option.map_map]
    cases s.collider_set.get? j with
    | none => rfl
    | some c =>
      rw [Option.map_some', Option.map_some', Function.comp_apply,
          wallUpd_idem]
  have heq : s'' = s' := State.eq_of_parts erb2 hcs eg2 el2 err2 et2 eb2
  rw [hr2, heq]

/-- Witness for C7: the second identical `resize(0, 0, 320, 240)` on a
fresh world returns the first call's result unchanged. -/
theorem c7_witness :
    (State.new.resize 0 0 320 240).isSome = true ∧
    (State.new.resize 0 0 320 240).bind (fun t => t.resize 0 0 320 240) =
      State.new.resize 0 0 320 240 := by
  constructor
  · norm_num [State.resize, State.setTrans, State.new, List.set]
  · cases hr : State.new.resize 0 0 320 240 with
    | none => rfl
    | some s' =>
      rw [Option.some_bind, c7_resize_idempotent State.new 0 0 320 240 s' hr]

/-- C8: enumerating a collider whose shape is not an axis-aligned cuboid
hits a `todo!()` (process-aborting) arm of `for_each_cube`; but every
collider in any state reachable via `new`, `insert_particle`, `resize` and
`step` is an axis-aligned cuboid, so `for_each_cube` never aborts in this
program. -/
theorem c8_todo_branch_unreachable :
    (∀ s : State, Reachable s → (State.for_each_cube s).isSome = true) ∧
    (∀ (s : State) (c : Collider), c ∈ s.collider_set →
      c.shape.isCuboid = false → State.for_each_cube s = none) := by
  constructor
  · intro s hs
    obtain ⟨out, ho, _⟩ := for_each_cube_some (reachable_inv hs).2
    rw [ho]
    rfl
  · intro s c hm hc
    exact cubesAux_none_of_mem hm hc

/-- Witness for C8: the fresh world enumerates without aborting, while a
world holding a ball collider aborts. -/
theorem c8_witness :
    (State.for_each_cube State.new).isSome = true ∧
    State.for_each_cube badState = none :=
  ⟨c8_todo_branch_unreachable.1 State.new Reachable.fresh,
   c8_todo_branch_unreachable.2 badState
     { shape := .ball 1, translation := (0, 0), restitution := 0,
       user_data := 0, parent := none }
     (List.mem_singleton.2 rfl) rfl⟩

/-- C9: `resize` only repositions the four walls: it recomputes positions
of existing colliders rather than recreating anything — the rigid-body set,
the stored wall handles, every collider at a non-wall index, and the shape,
restitution, user data and parent of every collider are all unchanged. -/
theorem c9_resize_frame (s : State) (x y w h : ℚ) (s' : State)
    (hr : s.resize x y w h = some s') :
    s'.rigid_body_set = s.rigid_body_set ∧
    s'.box_left = s.box_left ∧ s'.box_right = s.box_right ∧
    s'.box_top = s.box_top ∧ s'.box_bottom = s.box_bottom ∧
    (∀ j, j ≠ s.box_top → j ≠ s.box_left → j ≠ s.box_bottom →
      j ≠ s.box_right → s'.collider_set.get? j = s.collider_set.get? j) ∧
    (∀ j, (s'.collider_set.get? j).map
        (fun c => (c.shape, c.restitution, c.user_data, c.parent)) =
      (s.collider_set.get? j).map
        (fun c => (c.shape, c.restitution, c.user_data, c.parent))) := by
  obtain ⟨erb, eg, el, err, et, eb, elen, hget⟩ := resize_spec hr
  refine ⟨erb, el, err, et, eb, ?_, ?_⟩
  · intro j h1 h2 h3 h4
    rw [hget j]
    cases s.collider_set.get? j with
    | none => rfl
    | some c => rw [Option.map_some', wallUpd_id x y w h c h1 h2 h3 h4]
  · intro j
    rw [hget j, Option.map_map]
    cases s.collider_set.get? j with
    | none => rfl
    | some c =>
      rw [Option.map_some', Option.map_some', Function.comp_apply]
      obtain ⟨f1, f2, f3, f4⟩ := wallUpd_fields s.box_top s.box_left
        s.box_bottom s.box_right x y w h j c
      rw [f1, f2, f3, f4]

/-- Witness for C9: after one particle insertion, `resize(0, 0, 320, 240)`
leaves the rigid-body set and the particle's collider (index 4) intact. -/
theorem c9_witness :
    ((State.new.insert_particle 5 5 42).resize 0 0 320 240).map
        (fun t => (t.rigid_body_set, t.collider_set.get? 4)) =
      some ((State.new.insert_particle 5 5 42).rigid_body_set,
            (State.new.insert_particle 5 5 42).collider_set.get? 4) := by
  cases hr : (State.new.insert_particle 5 5 42).resize 0 0 320 240 with
  | none =>
    have hsome : (((State.new.insert_particle 5 5 42).resize
        0 0 320 240)).isSome = true := by
      norm_num [State.resize, State.setTrans, State.new,
        State.insert_particle, List.set]
    rw [hr] at hsome
    exact absurd hsome (by simp)
  | some s' =>
    obtain ⟨erb, _, _, _, _, hother, _⟩ :=
      c9_resize_frame (State.new.insert_particle 5 5 42) 0 0 320 240 s' hr
    rw [Option.map_some', erb,
        hother 4 (by decide) (by decide) (by decide) (by decide)]
